import Mathlib

/-!
Shallow embedding of the segment-to-discount resolution and order-line
construction pipeline of the `discount-editor` repository.

The relevant source lives in:
* `src/app/routes/api.check-segment-discount.tsx` (order-construction route:
  customer fetch, segment match, plan lookup, per-line membership checks,
  discount arithmetic, draft-order creation, identifier formatters);
* `src/unnamed/part_020` (offer route: tag-to-plan matching cascade, best-plan
  selection, rule map reduction, collection metadata fetch with fallback);
* `src/app/routes/api.test-simple-segment-offer.tsx` (same plan selection and
  rule map reduction over a local join table).

JavaScript numbers are modelled as `ℚ`; JS strings as Lean `String` with
character-list based helpers mirroring `toLowerCase`, `toUpperCase`,
`startsWith`, `includes`, `replace(/\D/g,'')` and the one regex match used by
the product-id formatter.  External services (Shopify GraphQL, the draft-order
sink) are modelled as explicit inputs describing their responses.
-/

namespace DiscountEditor

/-! ## Data model -/

/-- A `Rule` row: child of a discount plan (`prisma/migrations`: `categoryId`
is a collection identifier, `percentOff` a REAL). -/
structure Rule where
  id : String
  categoryId : String
  percentOff : ℚ
  deriving DecidableEq, Repr

/-- A `DiscountPlan` row together with its included `rules`. -/
structure DiscountPlan where
  id : String
  name : String
  targetType : String
  targetKey : String
  rules : List Rule
  deriving DecidableEq, Repr

/-- A Shopify segment as returned by `fetchSegments` (`{id, name}`). -/
structure Segment where
  id : String
  name : String
  deriving DecidableEq, Repr

/-- Customer data as returned by `fetchCustomerData` (`{id, tags}`). -/
structure CustomerData where
  id : String
  tags : List String
  deriving DecidableEq, Repr

/-! ## JS string helpers -/

/-- JS `s.toLowerCase()` (ASCII model): lowercase every character. -/
def jsToLower (s : String) : String := String.mk (s.data.map Char.toLower)

/-- JS `s.toUpperCase()` (ASCII model): uppercase every character. -/
def jsToUpper (s : String) : String := String.mk (s.data.map Char.toUpper)

/-- JS `s.charAt(0).toUpperCase() + s.slice(1)`. -/
def jsCapitalize (s : String) : String :=
  match s.data with
  | [] => ""
  | c :: cs => String.mk (Char.toUpper c :: cs)

/-- JS `s.startsWith(pfx)`. -/
def jsStartsWith (s pfx : String) : Bool := pfx.data.isPrefixOf s.data

/-- `needle` occurs as a contiguous run inside `hay` (Boolean infix test). -/
def isInfixB (needle : List Char) : List Char → Bool
  | [] => needle.isEmpty
  | c :: t => needle.isPrefixOf (c :: t) || isInfixB needle t

/-- JS `hay.includes(needle)`. -/
def jsIncludes (hay needle : String) : Bool := isInfixB needle.data hay.data

/-- JS `s.replace(pfx, "")` when guarded by `s.startsWith(pfx)`: drop the
prefix, otherwise return `s` unchanged. -/
def dropPrefixIfStarts (s pfx : String) : String :=
  if jsStartsWith s pfx then String.mk (s.data.drop pfx.data.length) else s

/-! ## Identifier Normalizer
(`formatProductId` / `formatVariantId` / `formatCustomerId`,
`src/app/routes/api.check-segment-discount.tsx` lines 538-583). -/

/-- A JS value that is `string | number` (the formatters' input type). -/
inductive JsId
  | num (n : Nat)
  | str (s : String)
  deriving DecidableEq, Repr

def productGidPrefix : String := "gid://shopify/Product/"
def variantGidPrefix : String := "gid://shopify/ProductVariant/"
def customerGidPrefix : String := "gid://shopify/Customer/"

/-- First match of the JS regex `/<pfx>(\d+)/` scanned left to right: at the
first position where `pfx` occurs followed by at least one digit, return the
maximal digit run after it. -/
def gidDigitMatch (pfx : List Char) : List Char → Option (List Char)
  | [] => none
  | c :: t =>
    if pfx.isPrefixOf (c :: t) && !(((c :: t).drop pfx.length).takeWhile Char.isDigit).isEmpty
    then some (((c :: t).drop pfx.length).takeWhile Char.isDigit)
    else gidDigitMatch pfx t

/-- `formatProductId` (lines 538-560). -/
def formatProductId : JsId → String
  | .num n => productGidPrefix ++ toString n
  | .str s =>
    if jsStartsWith s productGidPrefix then s
    else if !s.data.isEmpty && s.data.all Char.isDigit then productGidPrefix ++ s
    else if jsIncludes s productGidPrefix then
      match gidDigitMatch productGidPrefix.data s.data with
      | some ds => productGidPrefix ++ String.mk ds
      | none => productGidPrefix ++ s
    else productGidPrefix ++ s

/-- `formatVariantId` (lines 563-572): JS `variantId.replace(/\D/g,'')` keeps
only the digit characters. -/
def formatVariantId : JsId → String
  | .str s =>
    if jsStartsWith s variantGidPrefix then s
    else variantGidPrefix ++ String.mk (s.data.filter Char.isDigit)
  | .num n => variantGidPrefix ++ toString n

/-- `formatCustomerId` (lines 575-583). -/
def formatCustomerId (s : String) : String :=
  if jsStartsWith s customerGidPrefix then s
  else customerGidPrefix ++ String.mk (s.data.filter Char.isDigit)

/-! ## Plan Selector
(`src/unnamed/part_020` lines 201-214; identical loop in
`api.test-simple-segment-offer.tsx` lines 128-141). -/

/-- `planMax`: `plan.rules.reduce((max, r) => Math.max(max, r.percentOff), 0)`. -/
def planMax (p : DiscountPlan) : ℚ :=
  p.rules.foldl (fun m r => max m r.percentOff) 0

/-- One iteration of the best-plan loop: update the accumulator exactly when
`planMax plan > bestPlanMaxPercent`. -/
def selectStep (acc : Option DiscountPlan × ℚ) (plan : DiscountPlan) :
    Option DiscountPlan × ℚ :=
  if acc.2 < planMax plan then (some plan, planMax plan) else acc

/-- The best-plan loop, started on `bestPlan = null`, `bestPlanMaxPercent = 0`. -/
def selectBestPlan (plans : List DiscountPlan) : Option DiscountPlan × ℚ :=
  plans.foldl selectStep (none, 0)

/-- Running maximum of `planMax` over a plan list, from a given floor. -/
def runPlanMax (plans : List DiscountPlan) (b : ℚ) : ℚ :=
  plans.foldl (fun m p => max m (planMax p)) b

/-- The greatest `planMax` over the candidate list (floor 0, as in the loop). -/
def maxPlanMax (plans : List DiscountPlan) : ℚ := runPlanMax plans 0

/-! ## Rule Resolver
(`src/unnamed/part_020` lines 230-237; identical in
`api.test-simple-segment-offer.tsx` lines 157-164).  A JS
`Record<string, number>` is modelled as `String → Option ℚ`. -/

/-- One iteration of the `ruleMap` reduction:
`if (existing == null || rule.percentOff > existing) map[categoryId] = rule.percentOff`. -/
def ruleMapStep (m : String → Option ℚ) (r : Rule) : String → Option ℚ :=
  fun c =>
    if c == r.categoryId then
      match m r.categoryId with
      | none => some r.percentOff
      | some e => if e < r.percentOff then some r.percentOff else some e
    else m c

/-- The resolved collection → best-percent map, built from the empty record. -/
def buildRuleMap (rules : List Rule) : String → Option ℚ :=
  rules.foldl ruleMapStep (fun _ => none)

/-- Maximum of an optional running value and a new element. -/
def optMax (a : Option ℚ) (x : ℚ) : Option ℚ :=
  match a with
  | none => some x
  | some m => some (max m x)

/-- The maximum `percentOff` among the rules of a given `categoryId`
(`none` when no rule mentions it): the intended value of the resolved map. -/
def maxPercentFor (rules : List Rule) (c : String) : Option ℚ :=
  (rules.filter (fun r => r.categoryId == c)).foldl (fun a r => optMax a r.percentOff) none

/-- `Object.keys(ruleMap)`: category ids in first-insertion order, deduplicated. -/
def ruleMapKeys (rules : List Rule) : List String :=
  rules.foldl (fun ks r => if ks.contains r.categoryId then ks else ks ++ [r.categoryId]) []

/-! ## Collection Membership Oracle
(`checkProductInCollection`, `api.check-segment-discount.tsx` lines 664-706). -/

/-- What the membership GraphQL call produced: a thrown network error, a
response with a non-empty `errors` array, or the product's collection ids. -/
inductive MembershipFetch
  | networkError
  | gqlErrors
  | ok (collectionIds : List String)
  deriving DecidableEq, Repr

/-- `checkProductInCollection`, given the fetch outcome for this product: both
failure shapes return `false`; otherwise `productCollections.includes(collectionId)`. -/
def checkProductInCollection (resp : MembershipFetch) (collectionId : String) : Bool :=
  match resp with
  | .networkError => false
  | .gqlErrors => false
  | .ok ids => ids.contains collectionId

/-- `resp` is one of the two failure outcomes. -/
def MembershipFetch.isFailure : MembershipFetch → Bool
  | .ok _ => false
  | _ => true

/-- The membership Boolean the action loop sees, for a given oracle behaviour
`fetch : productId → collectionId → MembershipFetch`. -/
def memberOf (fetch : String → String → MembershipFetch) (pid cid : String) : Bool :=
  checkProductInCollection (fetch pid cid) cid

/-- The oracle with every failing call replaced by a "belongs to no collection"
success (the behaviour the failure policy is claimed to be equivalent to). -/
def replaceFailures (fetch : String → String → MembershipFetch) :
    String → String → MembershipFetch :=
  fun p c => if (fetch p c).isFailure then MembershipFetch.ok [] else fetch p c

/-! ## Cart input processing
(`api.check-segment-discount.tsx` lines 60-116). -/

/-- A processed cart line as the action loop consumes it
(`{ productId, price, quantity = 1, title }` plus the variant id).  `quantity`
is optional because the destructuring default `quantity = 1` applies only when
the field is absent. -/
structure CartItem where
  productId : String
  variantId : String
  price : ℚ
  quantity : Option ℚ
  title : String
  originalPrice : Option ℚ
  finalPrice : Option ℚ
  deriving DecidableEq, Repr

/-- An item of a Shopify cart object (`cartItems.items[]`), with snake_case
price fields in cents.  Fields are optional where the code guards with `|| d`. -/
structure ShopifyCartItem where
  product_id : JsId
  variant_id : JsId
  price : Option ℚ
  quantity : Option ℚ
  title : String
  original_price : Option ℚ
  final_price : Option ℚ
  deriving DecidableEq, Repr

/-- JS `x || d` on an optional number: absent or `0` falls back to `d`. -/
def jsOrQ (x : Option ℚ) (d : ℚ) : ℚ :=
  match x with
  | none => d
  | some v => if v = 0 then d else v

/-- The per-item mapping of the Shopify cart branch (lines 69-77): ids are
reformatted and the three price fields are divided by 100. -/
def processShopifyItem (it : ShopifyCartItem) : CartItem :=
  { productId := formatProductId it.product_id
    price := jsOrQ it.price 0 / 100
    quantity := some (jsOrQ it.quantity 1)
    variantId := formatVariantId it.variant_id
    title := it.title
    originalPrice := some (jsOrQ it.original_price 0 / 100)
    finalPrice := some (jsOrQ it.final_price 0 / 100) }

/-- The `cartItems` request field: a plain array, an object (with or without an
`items` array), or something else entirely. -/
inductive CartItemsInput
  | arr (items : List CartItem)
  | obj (items : Option (List ShopifyCartItem))
  | invalid
  deriving DecidableEq, Repr

/-- Outcome of cart processing: the processed items, or a 400 response. -/
inductive ProcessedCart
  | ok (items : List CartItem)
  | badRequest (msg : String)
  deriving DecidableEq, Repr

/-- Lines 60-94: arrays pass through unchanged; a cart object must carry an
`items` array, which is mapped through `processShopifyItem`; anything else is
rejected. -/
def processCartItems : CartItemsInput → ProcessedCart
  | .arr items => .ok items
  | .obj (some its) => .ok (its.map processShopifyItem)
  | .obj none => .badRequest "Invalid cart format. Expected 'items' array in cart object."
  | .invalid => .badRequest "Invalid cartItems format. Expected array or object with items array."

/-! ## Discount Calculator
(`api.check-segment-discount.tsx` lines 226-269). -/

/-- `const { quantity = 1 } = cartItem`. -/
def itemQuantity (i : CartItem) : ℚ := i.quantity.getD 1

/-- `itemTotalPrice = price * quantity`. -/
def itemTotalPrice (i : CartItem) : ℚ := i.price * itemQuantity i

/-- One iteration of the inner rule loop (lines 243-253): take the rule when
the product belongs to its collection and it beats the best percent so far. -/
def bestStep (member : String → String → Bool) (pid : String)
    (acc : Option Rule × ℚ) (r : Rule) : Option Rule × ℚ :=
  if member pid r.categoryId = true ∧ acc.2 < r.percentOff then (some r, r.percentOff) else acc

/-- The inner rule loop, started on `bestDiscount = null`, `bestPercentOff = 0`. -/
def bestDiscountForItem (member : String → String → Bool) (rules : List Rule)
    (pid : String) : Option Rule × ℚ :=
  rules.foldl (bestStep member pid) (none, 0)

/-- One entry of `applicableDiscounts` (lines 260-267). -/
structure AppliedDiscount where
  productId : String
  collectionId : String
  percentOff : ℚ
  originalPrice : ℚ
  discountedPrice : ℚ
  discountAmount : ℚ
  deriving DecidableEq, Repr

/-- The per-line outcome (lines 255-268): when a best discount exists, the
record pushed onto `applicableDiscounts`; otherwise nothing. -/
def processItem (member : String → String → Bool) (rules : List Rule)
    (i : CartItem) : Option AppliedDiscount :=
  match bestDiscountForItem member rules i.productId with
  | (some r, pct) =>
    some { productId := i.productId
           collectionId := r.categoryId
           percentOff := pct
           originalPrice := itemTotalPrice i
           discountedPrice := itemTotalPrice i - itemTotalPrice i * pct / 100
           discountAmount := itemTotalPrice i * pct / 100 }
  | (none, _) => none

/-- The three accumulators of the cart loop. -/
structure CartState where
  applicableDiscounts : List AppliedDiscount
  totalOriginalPrice : ℚ
  totalDiscountAmount : ℚ
  deriving DecidableEq, Repr

/-- One iteration of the cart loop (lines 231-269): `totalOriginalPrice` grows
by every line's total; a line with a best discount also pushes its record and
grows `totalDiscountAmount`. -/
def stepCartItem (member : String → String → Bool) (rules : List Rule)
    (s : CartState) (i : CartItem) : CartState :=
  let s1 : CartState := { s with totalOriginalPrice := s.totalOriginalPrice + itemTotalPrice i }
  match processItem member rules i with
  | some d =>
    { s1 with
      applicableDiscounts := s1.applicableDiscounts ++ [d]
      totalDiscountAmount := s1.totalDiscountAmount + d.discountAmount }
  | none => s1

/-- The cart loop over all processed items. -/
def processCart (member : String → String → Bool) (rules : List Rule)
    (items : List CartItem) : CartState :=
  items.foldl (stepCartItem member rules) ⟨[], 0, 0⟩

/-- `totalOriginalPrice > 0 ? totalDiscountAmount / totalOriginalPrice * 100 : 0`
(lines 292 and 328). -/
def savingsPercentage (totalOriginalPrice totalDiscountAmount : ℚ) : ℚ :=
  if 0 < totalOriginalPrice then totalDiscountAmount / totalOriginalPrice * 100 else 0

/-- JS `Math.max(...xs)` on a list known to be non-empty (the empty case is
unreachable in the source, which guards on `applicableDiscounts.length > 0`). -/
def jsMathMaxList : List ℚ → ℚ
  | [] => 0
  | h :: t => t.foldl max h

/-! ## Segment match and plan lookup of the order route
(`api.check-segment-discount.tsx` lines 159-222). -/

/-- Line 160: `segments.find(segment => customerData.tags.includes(segment.name))`
— an exact, case-sensitive membership test. -/
def findMatchedSegment (segments : List Segment) (tags : List String) : Option Segment :=
  segments.find? (fun seg => tags.contains seg.name)

/-- Lines 181-199: `findFirst` by `targetKey = segment.id`, then by
`targetKey = segment.name`, both restricted to `targetType = "segment"`. -/
def planForSegment (db : List DiscountPlan) (seg : Segment) : Option DiscountPlan :=
  match db.find? (fun p => p.targetType == "segment" && p.targetKey == seg.id) with
  | some p => some p
  | none => db.find? (fun p => p.targetType == "segment" && p.targetKey == seg.name)

/-! ## The order-construction pipeline
(`api.check-segment-discount.tsx` `action`, lines 24-347). -/

/-- Outcome of the `createDraftOrder` call: a created draft order with its
invoice URL, a structured failure (GraphQL/user errors), or a thrown error. -/
inductive DraftOrderOutcome
  | created (invoiceUrl : String)
  | failed (err : String)
  | threw
  deriving DecidableEq, Repr

/-- The `discountSummary` object (success branch lines 285-299; the no-discount
response lines 321-335 carries the same fields with `discountApplicable:false`
and `highestDiscountRate: 0`). -/
structure DiscountSummary where
  discountApplicable : Bool
  segment : String
  planName : String
  totalOriginalPrice : ℚ
  totalDiscountAmount : ℚ
  totalDiscountedPrice : ℚ
  savingsPercentage : ℚ
  applicableDiscounts : List AppliedDiscount
  itemsWithDiscount : Nat
  totalItems : Nat
  highestDiscountRate : ℚ
  deriving DecidableEq, Repr

/-- The distinguishable responses of the `action`, with the data the claims
talk about. -/
inductive CheckResponse
  | missingFields
  | badCart (msg : String)
  | emptyCart
  | noSession
  | customerNotFound
  | segmentsFetchFailed
  | noSegmentMatch
  | noPlan
  | orderCreated (invoiceUrl : String) (summary : DiscountSummary)
  | orderCreateFailed
  | noDiscounts (summary : DiscountSummary)
  deriving DecidableEq, Repr

/-- The HTTP status each response is sent with. -/
def CheckResponse.status : CheckResponse → Nat
  | .missingFields => 400
  | .badCart _ => 400
  | .emptyCart => 400
  | .noSession => 401
  | .customerNotFound => 404
  | .segmentsFetchFailed => 500
  | .noSegmentMatch => 200
  | .noPlan => 200
  | .orderCreated _ _ => 200
  | .orderCreateFailed => 500
  | .noDiscounts _ => 200

/-- The response is an error (4xx/5xx) rather than a normal outcome. -/
def CheckResponse.isError (r : CheckResponse) : Bool := 400 ≤ r.status

/-- The response body carries `discountApplicable: false` (the three normal
"no discount" outcomes of lines 163-170, 211-221 and 321-336). -/
def CheckResponse.discountApplicableFalse : CheckResponse → Bool
  | .noSegmentMatch => true
  | .noPlan => true
  | .noDiscounts s => !s.discountApplicable
  | _ => false

/-- The draft-order creation call to the sink was issued while producing this
response (both the success and the failure responses of lines 272-318 are
reached only after `createDraftOrder` runs). -/
def createsOrder : CheckResponse → Bool
  | .orderCreated _ _ => true
  | .orderCreateFailed => true
  | _ => false

/-- The summary shared by the success and no-discount responses, from the
final accumulator state.  `discountApplicable` and `highestDiscountRate` are
the two fields the branches set differently. -/
def summaryOfState (applicable : Bool) (segName planName : String) (st : CartState)
    (totalItems : Nat) (hdr : ℚ) : DiscountSummary :=
  { discountApplicable := applicable
    segment := segName
    planName := planName
    totalOriginalPrice := st.totalOriginalPrice
    totalDiscountAmount := st.totalDiscountAmount
    totalDiscountedPrice := st.totalOriginalPrice - st.totalDiscountAmount
    savingsPercentage := savingsPercentage st.totalOriginalPrice st.totalDiscountAmount
    applicableDiscounts := st.applicableDiscounts
    itemsWithDiscount := st.applicableDiscounts.length
    totalItems := totalItems
    highestDiscountRate := hdr }

/-- Steps 6-7 of the action (lines 226-337): run the cart loop, then either
issue the draft-order creation (lines 272-318, any sink outcome) or answer
with the no-discount summary (lines 321-336, `highestDiscountRate: 0`). -/
def discountPhase (items : List CartItem) (seg : Segment) (plan : DiscountPlan)
    (fetch : String → String → MembershipFetch) (sink : DraftOrderOutcome) :
    CheckResponse :=
  let st := processCart (memberOf fetch) plan.rules items
  if 0 < st.applicableDiscounts.length then
    match sink with
    | .created url =>
      .orderCreated url
        (summaryOfState true seg.name plan.name st items.length
          (jsMathMaxList (st.applicableDiscounts.map (·.percentOff))))
    | _ => .orderCreateFailed
  else
    .noDiscounts (summaryOfState false seg.name plan.name st items.length 0)

/-- The `action` of `api.check-segment-discount.tsx`, with every external call
replaced by its recorded outcome: `session`/`customer`/`segments` are `none`
when the lookup failed, `fetch` records the membership oracle's behaviour, and
`sink` the draft-order service's answer. -/
def checkSegmentDiscount (hasRequiredFields : Bool) (cart : CartItemsInput)
    (session : Option Unit) (customer : Option CustomerData)
    (segments : Option (List Segment)) (db : List DiscountPlan)
    (fetch : String → String → MembershipFetch) (sink : DraftOrderOutcome) :
    CheckResponse :=
  if !hasRequiredFields then .missingFields else
  match processCartItems cart with
  | .badRequest msg => .badCart msg
  | .ok items =>
    if items.isEmpty then .emptyCart else
    match session with
    | none => .noSession
    | some _ =>
      match customer with
      | none => .customerNotFound
      | some cust =>
        match segments with
        | none => .segmentsFetchFailed
        | some segs =>
          match findMatchedSegment segs cust.tags with
          | none => .noSegmentMatch
          | some seg =>
            match planForSegment db seg with
            | none => .noPlan
            | some plan =>
              if plan.rules.length == 0 then .noPlan
              else discountPhase items seg plan fetch sink

/-! ## The offer route's matching cascade
(`src/unnamed/part_020` `action`, lines 76-185). -/

/-- `prisma.discountPlan.findMany({where: {targetType: "segment", targetKey: {in: keys}}})`,
with the plan store modelled as a list in fetch order. -/
def segmentTargetPlans (db : List DiscountPlan) (keys : List String) : List DiscountPlan :=
  db.filter (fun p => p.targetType == "segment" && keys.contains p.targetKey)

/-- Cascade strategy 1 (lines 86-94): exact match of the lowercased tags
against `targetKey`. -/
def stage1Plans (db : List DiscountPlan) (tags : List String) : List DiscountPlan :=
  segmentTargetPlans db (tags.map jsToLower)

/-- Cascade strategy 2 (lines 99-120): tags recoded as
`gid://shopify/Segment/<tag>`. -/
def stage2Plans (db : List DiscountPlan) (tags : List String) : List DiscountPlan :=
  segmentTargetPlans db ((tags.map jsToLower).map (fun tag => "gid://shopify/Segment/" ++ tag))

/-- Cascade strategy 3 (lines 123-138): uppercased tags. -/
def stage3Plans (db : List DiscountPlan) (tags : List String) : List DiscountPlan :=
  segmentTargetPlans db ((tags.map jsToLower).map jsToUpper)

/-- Cascade strategy 4 (lines 141-158): capitalized tags. -/
def stage4Plans (db : List DiscountPlan) (tags : List String) : List DiscountPlan :=
  segmentTargetPlans db ((tags.map jsToLower).map jsCapitalize)

/-- Cascade strategy 5 (lines 161-185): all segment plans whose
`targetKey.toLowerCase()` contains some lowercased tag as a substring. -/
def stage5Plans (db : List DiscountPlan) (tags : List String) : List DiscountPlan :=
  (db.filter (fun p => p.targetType == "segment")).filter
    (fun p => (tags.map jsToLower).any (fun tag => jsIncludes (jsToLower p.targetKey) tag))

/-- The full five-stage cascade (lines 86-185): each later stage runs only
when every earlier stage matched nothing. -/
def cascadePlans (db : List DiscountPlan) (tags : List String) : List DiscountPlan :=
  if !(stage1Plans db tags).isEmpty then stage1Plans db tags
  else if !(stage2Plans db tags).isEmpty then stage2Plans db tags
  else if !(stage3Plans db tags).isEmpty then stage3Plans db tags
  else if !(stage4Plans db tags).isEmpty then stage4Plans db tags
  else stage5Plans db tags

/-! ## Offer construction with collection metadata fallback
(`src/unnamed/part_020` lines 230-458). -/

/-- One entry of the offer's `collections` array. -/
structure OfferCollection where
  id : String
  title : String
  name : String
  handle : String
  percentOff : Option ℚ
  deriving DecidableEq, Repr

/-- A node of the collection-metadata GraphQL response. -/
structure CollectionNode where
  id : String
  title : String
  handle : String
  deriving DecidableEq, Repr

/-- Outcome of the collection-metadata fetch: thrown/errored, or a node list. -/
inductive MetadataFetch
  | failure
  | ok (nodes : List CollectionNode)
  deriving DecidableEq, Repr

/-- The fallback entry built in the `catch` blocks (lines 417-431 and 744-757):
placeholder title `Collection <numericId>`, empty handle, and the rule map's
percent for the original key. -/
def fallbackCollection (rules : List Rule) (cid : String) : OfferCollection :=
  let numericId := dropPrefixIfStarts cid "gid://shopify/Collection/"
  { id := numericId
    title := "Collection " ++ numericId
    name := "Collection " ++ numericId
    handle := ""
    percentOff := buildRuleMap rules cid }

/-- The node whose id matches `cid` directly or after stripping the GID prefix
(the `collectionMap[numericId] || collectionMap[collectionId]` lookup, with the
map keyed by both forms of every node id). -/
def lookupNode (nodes : List CollectionNode) (cid : String) : Option CollectionNode :=
  nodes.find? (fun n =>
    dropPrefixIfStarts n.id "gid://shopify/Collection/" == cid || n.id == cid)

/-- The `collections` array of the offer (lines 364-394 on success, the
`catch` fallback on failure). -/
def offerCollections (meta : MetadataFetch) (rules : List Rule) : List OfferCollection :=
  match meta with
  | .failure => (ruleMapKeys rules).map (fallbackCollection rules)
  | .ok nodes =>
    (ruleMapKeys rules).map (fun cid =>
      let numericId := dropPrefixIfStarts cid "gid://shopify/Collection/"
      match lookupNode nodes numericId with
      | some node =>
        { id := numericId
          title := node.title
          name := node.title
          handle := node.handle
          percentOff := buildRuleMap rules cid }
      | none =>
        { id := numericId
          title := "Collection " ++ numericId
          name := "Collection " ++ numericId
          handle := ""
          percentOff := buildRuleMap rules cid })

/-- Lines 434-437: the first lowercased tag related to `targetKey` by substring
containment in either direction, used as the displayed segment name. -/
def matchingTag (customerTags : List String) (p : DiscountPlan) : Option String :=
  customerTags.find? (fun tag =>
    jsIncludes (jsToLower p.targetKey) tag || jsIncludes tag (jsToLower p.targetKey))

/-- The offer value (lines 439-445). -/
structure Offer where
  discountApplicable : Bool
  segmentName : String
  planName : String
  collections : List OfferCollection
  highestDiscountRate : ℚ
  deriving DecidableEq, Repr

/-- The offer built once a best plan exists, for a given metadata-fetch
outcome: `discountApplicable` is the literal `true`. -/
def buildOffer (meta : MetadataFetch) (customerTags : List String)
    (bestPlan : DiscountPlan) (bestPlanMaxPercent : ℚ) : Offer :=
  { discountApplicable := true
    segmentName := (matchingTag customerTags bestPlan).getD bestPlan.targetKey
    planName := bestPlan.name
    collections := offerCollections meta bestPlan.rules
    highestDiscountRate := bestPlanMaxPercent }

/-! ## Concrete values used in counterexamples and witnesses -/

/-- A plan targeting the segment name `"VIP"` in its stored (uppercase) form. -/
def vipPlan : DiscountPlan :=
  { id := "p1", name := "VIP Plan", targetType := "segment", targetKey := "VIP"
    rules := [{ id := "r1", categoryId := "c1", percentOff := 10 }] }

/-- A plan whose `targetKey` is stored fully lowercase. -/
def lcVipPlan : DiscountPlan :=
  { id := "p2", name := "vip plan", targetType := "segment", targetKey := "vip"
    rules := [{ id := "r2", categoryId := "c1", percentOff := 10 }] }

/-- Two rules for the same collection at 10% and 20%. -/
def dupRule10 : Rule := { id := "r10", categoryId := "col", percentOff := 10 }

def dupRule20 : Rule := { id := "r20", categoryId := "col", percentOff := 20 }

/-- A 15%-off rule, paired with `calcExItem` in the calculator example. -/
def calcExRule : Rule := { id := "rx", categoryId := "cx", percentOff := 15 }

/-- The spec's calculator example: `unitPrice=100, quantity=2`. -/
def calcExItem : CartItem :=
  { productId := "p", variantId := "v", price := 100, quantity := some 2
    title := "t", originalPrice := none, finalPrice := none }

/-- A minimal well-formed cart line. -/
def cexItem : CartItem :=
  { productId := "prod1", variantId := "var1", price := 10, quantity := some 1
    title := "item", originalPrice := none, finalPrice := none }

/-- A plan with a single 20%-off rule on collection `"123"`. -/
def cexPlan : DiscountPlan :=
  { id := "p3", name := "Plan", targetType := "segment", targetKey := "vip"
    rules := [{ id := "r3", categoryId := "123", percentOff := 20 }] }

/-! # Theorems -/

/-! ## Plan Selector lemmas -/

theorem selectStep_snd (acc : Option DiscountPlan × ℚ) (p : DiscountPlan) :
    (selectStep acc p).2 = max acc.2 (planMax p) := by
  unfold selectStep
  by_cases h : acc.2 < planMax p
  · rw [if_pos h, max_eq_right h.le]
  · rw [if_neg h, max_eq_left (not_lt.mp h)]

theorem foldl_selectStep_snd (plans : List DiscountPlan) (acc : Option DiscountPlan × ℚ) :
    (plans.foldl selectStep acc).2 = runPlanMax plans acc.2 := by
  induction plans generalizing acc with
  | nil => rfl
  | cons p ps ih =>
    show (ps.foldl selectStep (selectStep acc p)).2 = runPlanMax ps (max acc.2 (planMax p))
    rw [ih, selectStep_snd]

theorem le_runPlanMax_init (plans : List DiscountPlan) (b : ℚ) : b ≤ runPlanMax plans b := by
  induction plans generalizing b with
  | nil => exact le_refl b
  | cons p ps ih =>
    exact le_trans (le_max_left b (planMax p)) (ih (max b (planMax p)))

theorem planMax_le_runPlanMax (plans : List DiscountPlan) (b : ℚ) (q : DiscountPlan)
    (hq : q ∈ plans) : planMax q ≤ runPlanMax plans b := by
  induction plans generalizing b with
  | nil => cases hq
  | cons p ps ih =>
    rcases List.mem_cons.mp hq with rfl | hq'
    · exact le_trans (le_max_right b (planMax q)) (le_runPlanMax_init ps _)
    · exact ih (max b (planMax p)) hq'

theorem runPlanMax_of_all_le (plans : List DiscountPlan) (b : ℚ)
    (h : ∀ p ∈ plans, planMax p ≤ b) : runPlanMax plans b = b := by
  induction plans with
  | nil => rfl
  | cons p ps ih =>
    show runPlanMax ps (max b (planMax p)) = b
    rw [max_eq_left (h p (List.mem_cons_self p ps))]
    exact ih fun q hq => h q (List.mem_cons_of_mem p hq)

theorem foldl_selectStep_stay (plans : List DiscountPlan) (acc : Option DiscountPlan × ℚ)
    (h : ∀ p ∈ plans, planMax p ≤ acc.2) : plans.foldl selectStep acc = acc := by
  induction plans with
  | nil => rfl
  | cons p ps ih =>
    have hstep : selectStep acc p = acc := by
      unfold selectStep
      exact if_neg (not_lt.mpr (h p (List.mem_cons_self p ps)))
    rw [List.foldl_cons, hstep]
    exact ih fun q hq => h q (List.mem_cons_of_mem p hq)

theorem foldl_selectStep_find (plans : List DiscountPlan) (acc : Option DiscountPlan × ℚ)
    (hex : ∃ p ∈ plans, acc.2 < planMax p) :
    (plans.foldl selectStep acc).1 =
      plans.find? (fun p => planMax p == runPlanMax plans acc.2) := by
  induction plans generalizing acc with
  | nil => obtain ⟨p, hp, _⟩ := hex; cases hp
  | cons p ps ih =>
    rw [List.foldl_cons]
    have hMcons : runPlanMax (p :: ps) acc.2 = runPlanMax ps (max acc.2 (planMax p)) := rfl
    by_cases h : acc.2 < planMax p
    · have hstep : selectStep acc p = (some p, planMax p) := by
        unfold selectStep; exact if_pos h
      have hM : runPlanMax (p :: ps) acc.2 = runPlanMax ps (planMax p) := by
        rw [hMcons, max_eq_right h.le]
      rw [hstep]
      by_cases h2 : ∃ q ∈ ps, planMax p < planMax q
      · rw [ih (some p, planMax p) h2]
        obtain ⟨q, hq, hlt⟩ := h2
        have hne : planMax p < runPlanMax (p :: ps) acc.2 := by
          rw [hM]
          exact lt_of_lt_of_le hlt (planMax_le_runPlanMax ps (planMax p) q hq)
        rw [List.find?_cons_of_neg _ (by simp [beq_iff_eq]; exact ne_of_lt hne), hM]
      · push_neg at h2
        rw [foldl_selectStep_stay ps (some p, planMax p) h2]
        have hMM : runPlanMax (p :: ps) acc.2 = planMax p := by
          rw [hM]; exact runPlanMax_of_all_le ps (planMax p) h2
        rw [List.find?_cons_of_pos _ (by simp [beq_iff_eq, hMM])]
    · have hstep : selectStep acc p = acc := by
        unfold selectStep; exact if_neg h
      rw [hstep]
      obtain ⟨q, hq, hlt⟩ := hex
      have hqps : q ∈ ps := by
        rcases List.mem_cons.mp hq with rfl | hq'
        · exact absurd hlt h
        · exact hq'
      have hM : runPlanMax (p :: ps) acc.2 = runPlanMax ps acc.2 := by
        rw [hMcons, max_eq_left (not_lt.mp h)]
      rw [ih acc ⟨q, hqps, hlt⟩, hM]
      have hne : planMax p < runPlanMax ps acc.2 :=
        lt_of_le_of_lt (not_lt.mp h)
          (lt_of_lt_of_le hlt (planMax_le_runPlanMax ps acc.2 q hqps))
      rw [List.find?_cons_of_neg _ (by simp [beq_iff_eq]; exact ne_of_lt hne)]

theorem le_percentFold (rules : List Rule) (b : ℚ) :
    b ≤ rules.foldl (fun m r => max m r.percentOff) b := by
  induction rules generalizing b with
  | nil => exact le_refl b
  | cons r rs ih =>
    exact le_trans (le_max_left b r.percentOff) (ih (max b r.percentOff))

theorem planMax_nonneg (p : DiscountPlan) : 0 ≤ planMax p := le_percentFold p.rules 0

/-- C1: for a non-empty candidate list, the selector keeps `bestPlan = null`
exactly when no plan has a positive `planMax` (so the result is "no applicable
plan"); otherwise it selects the first plan, in fetch order, whose `planMax`
equals the greatest `planMax`; any selected plan is a candidate with positive,
maximal `planMax`. -/
theorem plan_selector_spec (plans : List DiscountPlan) (hne : plans ≠ []) :
    ((∀ p ∈ plans, planMax p = 0) → (selectBestPlan plans).1 = none) ∧
    ((∃ p ∈ plans, 0 < planMax p) →
      (selectBestPlan plans).1 = plans.find? (fun p => planMax p == maxPlanMax plans)) ∧
    (∀ q, (selectBestPlan plans).1 = some q →
      q ∈ plans ∧ planMax q = maxPlanMax plans ∧ 0 < planMax q) := by
  refine ⟨?_, ?_, ?_⟩
  · intro hall
    have := foldl_selectStep_stay plans (none, 0) (fun p hp => le_of_eq (hall p hp))
    unfold selectBestPlan
    rw [this]
  · intro hex
    exact foldl_selectStep_find plans (none, 0) hex
  · intro q hq
    have hex : ∃ p ∈ plans, 0 < planMax p := by
      by_contra hno
      push_neg at hno
      have hall : ∀ p ∈ plans, planMax p = 0 := fun p hp =>
        le_antisymm (hno p hp) (planMax_nonneg p)
      have := foldl_selectStep_stay plans (none, 0) (fun p hp => le_of_eq (hall p hp))
      unfold selectBestPlan at hq
      rw [this] at hq
      exact Option.noConfusion hq
    have hfind := foldl_selectStep_find plans (none, 0) hex
    unfold selectBestPlan at hq
    rw [hfind] at hq
    have hmem := List.mem_of_find?_eq_some hq
    have hpred := List.find?_some hq
    have heq : planMax q = maxPlanMax plans := by
      simpa [beq_iff_eq] using hpred
    refine ⟨hmem, heq, ?_⟩
    obtain ⟨p, hp, hpos⟩ := hex
    calc (0 : ℚ) < planMax p := hpos
    _ ≤ runPlanMax plans 0 := planMax_le_runPlanMax plans 0 p hp
    _ = planMax q := heq.symm

/-- Witness for C1 at a concrete two-plan candidate list (10% vs 25%). -/
theorem plan_selector_spec_witness :
    ([vipPlan, cexPlan] ≠ ([] : List DiscountPlan)) ∧
    ((selectBestPlan [vipPlan, cexPlan]).1 =
      [vipPlan, cexPlan].find? (fun p => planMax p == maxPlanMax [vipPlan, cexPlan])) := by
  refine ⟨by decide, ?_⟩
  exact (plan_selector_spec [vipPlan, cexPlan] (by decide)).2.1 ⟨vipPlan, by decide, by decide⟩

/-! ## Rule Resolver lemmas -/

theorem ruleMapStep_update (m : String → Option ℚ) (r : Rule) :
    ruleMapStep m r r.categoryId = optMax (m r.categoryId) r.percentOff := by
  unfold ruleMapStep optMax
  rw [if_pos (beq_self_eq_true r.categoryId)]
  cases m r.categoryId with
  | none => rfl
  | some e =>
    show (if e < r.percentOff then some r.percentOff else some e) = some (max e r.percentOff)
    by_cases h : e < r.percentOff
    · rw [if_pos h, max_eq_right h.le]
    · rw [if_neg h, max_eq_left (not_lt.mp h)]

theorem ruleMapStep_other (m : String → Option ℚ) (r : Rule) (c : String)
    (h : ¬(c = r.categoryId)) : ruleMapStep m r c = m c := by
  unfold ruleMapStep
  rw [if_neg (by simpa [beq_iff_eq] using h)]

theorem foldl_ruleMapStep_eq (rules : List Rule) (m : String → Option ℚ) (c : String) :
    (rules.foldl ruleMapStep m) c =
      (rules.filter (fun r => r.categoryId == c)).foldl
        (fun a r => optMax a r.percentOff) (m c) := by
  induction rules generalizing m with
  | nil => rfl
  | cons r rs ih =>
    rw [List.foldl_cons, ih (ruleMapStep m r)]
    by_cases hc : r.categoryId = c
    · subst hc
      rw [List.filter_cons_of_pos (by simp), List.foldl_cons, ruleMapStep_update]
    · rw [List.filter_cons_of_neg (by simp [hc]),
        ruleMapStep_other m r c (fun h => hc h.symm)]

theorem buildRuleMap_eq_maxPercentFor (rules : List Rule) (c : String) :
    buildRuleMap rules c = maxPercentFor rules c :=
  foldl_ruleMapStep_eq rules (fun _ => none) c

theorem optMax_fold_perm {l l' : List Rule} (h : l.Perm l') (a : Option ℚ) :
    l.foldl (fun a r => optMax a r.percentOff) a =
      l'.foldl (fun a r => optMax a r.percentOff) a := by
  induction h generalizing a with
  | nil => rfl
  | cons x _ ih =>
    rw [List.foldl_cons, List.foldl_cons]
    exact ih _
  | swap x y l =>
    rw [List.foldl_cons, List.foldl_cons, List.foldl_cons, List.foldl_cons]
    have : optMax (optMax a y.percentOff) x.percentOff
        = optMax (optMax a x.percentOff) y.percentOff := by
      cases a with
      | none => simp [optMax, max_comm]
      | some q =>
        show some (max (max q y.percentOff) x.percentOff)
          = some (max (max q x.percentOff) y.percentOff)
        rw [max_assoc, max_comm y.percentOff x.percentOff, ← max_assoc]
    rw [this]
  | trans _ _ ih1 ih2 =>
    rw [ih1, ih2]

/-- C3: the resolved map assigns to every `categoryId` exactly the maximum
`percentOff` among the rules sharing it (`none` for ids no rule mentions, so
duplicate rules collapse to the single highest entry), and the map is the same
for every permutation of the rule list. -/
theorem rule_resolver_spec (rules rules' : List Rule) (hperm : rules.Perm rules') :
    (∀ c, buildRuleMap rules c = maxPercentFor rules c) ∧
    (∀ c, buildRuleMap rules c = buildRuleMap rules' c) := by
  constructor
  · exact fun c => buildRuleMap_eq_maxPercentFor rules c
  · intro c
    rw [buildRuleMap_eq_maxPercentFor rules c, buildRuleMap_eq_maxPercentFor rules' c]
    unfold maxPercentFor
    exact optMax_fold_perm (hperm.filter _) none

/-- Witness for C3: duplicate rules at 10% and 20% for collection `"col"`, in
both orders, resolve to the single entry `some 20`. -/
theorem rule_resolver_spec_witness :
    (∀ c, buildRuleMap [dupRule10, dupRule20] c = buildRuleMap [dupRule20, dupRule10] c) ∧
    buildRuleMap [dupRule10, dupRule20] "col" = some 20 := by
  refine ⟨(rule_resolver_spec [dupRule10, dupRule20] [dupRule20, dupRule10]
    (List.Perm.swap dupRule20 dupRule10 [])).2, by decide⟩

/-! ## Discount Calculator lemmas -/

theorem stepCartItem_some (member : String → String → Bool) (rules : List Rule)
    (s : CartState) (i : CartItem) (d : AppliedDiscount)
    (h : processItem member rules i = some d) :
    stepCartItem member rules s i =
      ⟨s.applicableDiscounts ++ [d], s.totalOriginalPrice + itemTotalPrice i,
        s.totalDiscountAmount + d.discountAmount⟩ := by
  unfold stepCartItem
  rw [h]

theorem stepCartItem_none (member : String → String → Bool) (rules : List Rule)
    (s : CartState) (i : CartItem) (h : processItem member rules i = none) :
    stepCartItem member rules s i =
      ⟨s.applicableDiscounts, s.totalOriginalPrice + itemTotalPrice i,
        s.totalDiscountAmount⟩ := by
  unfold stepCartItem
  rw [h]

theorem foldl_stepCartItem_spec (member : String → String → Bool) (rules : List Rule)
    (items : List CartItem) (s : CartState) :
    items.foldl (stepCartItem member rules) s =
      ⟨s.applicableDiscounts ++ items.filterMap (processItem member rules),
        s.totalOriginalPrice + (items.map itemTotalPrice).sum,
        s.totalDiscountAmount +
          ((items.filterMap (processItem member rules)).map AppliedDiscount.discountAmount).sum⟩ := by
  induction items generalizing s with
  | nil => simp
  | cons i its ih =>
    rw [List.foldl_cons]
    cases hpi : processItem member rules i with
    | some d =>
      rw [stepCartItem_some member rules s i d hpi, ih]
      simp [hpi, List.filterMap_cons, add_assoc]
    | none =>
      rw [stepCartItem_none member rules s i hpi, ih]
      simp [hpi, List.filterMap_cons, add_assoc]

theorem processCart_spec (member : String → String → Bool) (rules : List Rule)
    (items : List CartItem) :
    processCart member rules items =
      ⟨items.filterMap (processItem member rules),
        (items.map itemTotalPrice).sum,
        ((items.filterMap (processItem member rules)).map AppliedDiscount.discountAmount).sum⟩ := by
  unfold processCart
  rw [foldl_stepCartItem_spec]
  simp

theorem processItem_fields (member : String → String → Bool) (rules : List Rule)
    (i : CartItem) (d : AppliedDiscount) (h : processItem member rules i = some d) :
    d.originalPrice = itemTotalPrice i ∧
    d.discountAmount = d.originalPrice * d.percentOff / 100 ∧
    d.discountedPrice = d.originalPrice - d.discountAmount := by
  unfold processItem at h
  cases hbd : bestDiscountForItem member rules i.productId with
  | mk fst snd =>
    cases fst with
    | none =>
      rw [hbd] at h
      cases h
    | some r =>
      rw [hbd] at h
      cases h
      exact ⟨rfl, rfl, rfl⟩

/-- C2: every line total is `unitPrice * quantity`; every record pushed by the
cart loop satisfies `discountAmount = lineTotal * percentOff / 100` and
`discountedTotal = lineTotal - discountAmount`; the spec's example
(`unitPrice=100, quantity=2, percentOff=15`) yields `(200, 30, 170)`; and
`savingsPercentage` is `totalDiscountAmount / totalOriginalPrice * 100` with a
divide-by-zero guard producing 0. -/
theorem discount_calculator_spec (member : String → String → Bool) (rules : List Rule)
    (items : List CartItem) (tO tD : ℚ) :
    (∀ i ∈ items, itemTotalPrice i = i.price * itemQuantity i) ∧
    (∀ d ∈ (processCart member rules items).applicableDiscounts,
      d.discountAmount = d.originalPrice * d.percentOff / 100 ∧
      d.discountedPrice = d.originalPrice - d.discountAmount) ∧
    ((processItem (fun _ _ => true) [calcExRule] calcExItem).map
        (fun d => (d.originalPrice, d.discountAmount, d.discountedPrice))
      = some (200, 30, 170)) ∧
    (0 < tO → savingsPercentage tO tD = tD / tO * 100) ∧
    savingsPercentage 0 tD = 0 := by
  refine ⟨fun i _ => rfl, ?_,
    by norm_num [processItem, bestDiscountForItem, bestStep, calcExItem, calcExRule,
      itemTotalPrice, itemQuantity],
    fun h => if_pos h, if_neg (lt_irrefl 0)⟩
  intro d hd
  rw [processCart_spec] at hd
  obtain ⟨i, _, hpi⟩ := List.mem_filterMap.mp hd
  exact (processItem_fields member rules i d hpi).2

/-- Witness for C2 at the spec's concrete totals. -/
theorem discount_calculator_spec_witness :
    (0 : ℚ) < 200 ∧ savingsPercentage 200 30 = 30 / 200 * 100 := by
  have h := discount_calculator_spec (fun _ _ => true) [calcExRule] [calcExItem] 200 30
  exact ⟨by decide, h.2.2.2.1 (by decide)⟩

/-! ## Segment Matcher lemmas -/

theorem isPrefixOf_self_char (l : List Char) : l.isPrefixOf l = true := by
  induction l with
  | nil => rfl
  | cons c t ih => simp [List.isPrefixOf, ih]

theorem isInfixB_self (l : List Char) : isInfixB l l = true := by
  cases l with
  | nil => rfl
  | cons c t => simp [isInfixB, isPrefixOf_self_char]

theorem jsIncludes_self (s : String) : jsIncludes s s = true := isInfixB_self s.data

theorem guarded_ne_nil (s rest : List DiscountPlan) (h : rest ≠ []) :
    (if !s.isEmpty then s else rest) ≠ [] := by
  cases hs : s.isEmpty with
  | true => simpa [hs] using h
  | false =>
    simp only [hs, Bool.not_false, if_true]
    intro hnil
    subst hnil
    simp at hs

/-- C4 counterexample: the tag `"VIP"` equals the stored segment key `"VIP"`
even literally, yet cascade strategy 1 produces no match (it lowercases the
tag first), and the order route's segment match (which is fully
case-sensitive) does not match `"vip"` against the segment named `"VIP"` at
all. -/
theorem segment_matcher_cex :
    stage1Plans [vipPlan] ["VIP"] = [] ∧
    jsToLower "VIP" = jsToLower vipPlan.targetKey ∧
    findMatchedSegment [{ id := "s1", name := "VIP" }] ["vip"] = none := by
  refine ⟨by decide, rfl, by decide⟩

/-- C4 amended: a tag equal to a plan's `targetKey` under case-insensitive
comparison guarantees that the cascade as a whole produces a non-empty match
set (at the substring stage at the latest), but not necessarily at the first
strategy: strategy 1 matches a plan precisely when its `targetKey` occurs
among the lowercased tags. -/
theorem segment_matcher_amended (db : List DiscountPlan) (p : DiscountPlan)
    (tags : List String) (t : String) (hp : p ∈ db) (ht : t ∈ tags)
    (hseg : p.targetType = "segment") (hci : jsToLower t = jsToLower p.targetKey) :
    cascadePlans db tags ≠ [] ∧
    (p ∈ stage1Plans db tags ↔ (tags.map jsToLower).contains p.targetKey = true) := by
  constructor
  · unfold cascadePlans
    refine guarded_ne_nil _ _ (guarded_ne_nil _ _ (guarded_ne_nil _ _ (guarded_ne_nil _ _ ?_)))
    refine List.ne_nil_of_mem (a := p) ?_
    unfold stage5Plans
    rw [List.mem_filter]
    refine ⟨List.mem_filter.mpr ⟨hp, by simp [hseg]⟩, ?_⟩
    rw [List.any_eq_true]
    refine ⟨jsToLower t, List.mem_map_of_mem _ ht, ?_⟩
    rw [hci]
    exact jsIncludes_self _
  · unfold stage1Plans segmentTargetPlans
    rw [List.mem_filter]
    constructor
    · rintro ⟨-, hpred⟩
      simp only [Bool.and_eq_true] at hpred
      exact hpred.2
    · intro hc
      refine ⟨hp, ?_⟩
      simp only [hseg, beq_self_eq_true, Bool.true_and]
      exact hc

/-- Witness for the amended C4: the tag `"VIP"` against a plan whose key is
stored lowercase as `"vip"`. -/
theorem segment_matcher_amended_witness :
    cascadePlans [lcVipPlan] ["VIP"] ≠ [] ∧
    (lcVipPlan ∈ stage1Plans [lcVipPlan] ["VIP"] ↔
      (["VIP"].map jsToLower).contains lcVipPlan.targetKey = true) :=
  segment_matcher_amended [lcVipPlan] lcVipPlan ["VIP"] "VIP"
    (by simp) (by simp) (by decide) (by decide)

/-! ## Identifier Normalizer lemmas -/

theorem gidDigitMatch_of_no_digit (pfx l : List Char) (h : ∀ c ∈ l, c.isDigit = false) :
    gidDigitMatch pfx l = none := by
  induction l with
  | nil => rfl
  | cons c t ih =>
    unfold gidDigitMatch
    have hdrop : (((c :: t).drop pfx.length).takeWhile Char.isDigit) = [] := by
      cases hd : (c :: t).drop pfx.length with
      | nil => rfl
      | cons d ds =>
        have hdmem : d ∈ (c :: t) :=
          List.drop_subset pfx.length (c :: t) (by rw [hd]; exact List.mem_cons_self d ds)
        simp [List.takeWhile_cons, h d hdmem]
    rw [hdrop]
    simp only [List.isEmpty_nil, Bool.not_true, Bool.and_false, Bool.false_eq_true, if_false]
    exact ih fun d hd => h d (List.mem_cons_of_mem c hd)

theorem string_append_mk_nil (s : String) : s ++ String.mk [] = s := by
  cases s with
  | mk d => exact congrArg String.mk (List.append_nil d)

theorem formatProductId_malformed (m : String) (hm : ∀ c ∈ m.data, c.isDigit = false)
    (hmp : jsStartsWith m productGidPrefix = false) :
    formatProductId (JsId.str m) = productGidPrefix ++ m := by
  have h2 : (!m.data.isEmpty && m.data.all Char.isDigit) = false := by
    cases hd : m.data with
    | nil => simp
    | cons c t =>
      have hcd : c.isDigit = false := hm c (by rw [hd]; exact List.mem_cons_self c t)
      simp [hcd]
  have h3 : gidDigitMatch productGidPrefix.data m.data = none :=
    gidDigitMatch_of_no_digit productGidPrefix.data m.data hm
  by_cases hincl : jsIncludes m productGidPrefix = true
  · simp [formatProductId, hmp, h2, h3, hincl]
  · simp [formatProductId, hmp, h2, h3, hincl]

/-- C7 counterexample: the malformed identifier `"abc"` has no recognizable
numeric suffix, yet `formatProductId` does not return it unchanged — it wraps
it in the canonical prefix. -/
theorem identifier_normalizer_cex :
    formatProductId (JsId.str "abc") = "gid://shopify/Product/abc" ∧
    ("gid://shopify/Product/abc" : String) ≠ "abc" := by
  exact ⟨by decide, by decide⟩

/-- C7 amended: the three formatters return already-canonical prefixed
identifiers unchanged, but a malformed input with no digits is not returned
unchanged: `formatProductId` wraps the whole input in the product prefix, and
`formatVariantId`/`formatCustomerId` strip all non-digits, yielding just the
bare prefix. -/
theorem identifier_normalizer_amended (sp sv sc m : String)
    (hp : jsStartsWith sp productGidPrefix = true)
    (hv : jsStartsWith sv variantGidPrefix = true)
    (hc : jsStartsWith sc customerGidPrefix = true)
    (hm : ∀ ch ∈ m.data, ch.isDigit = false)
    (hmp : jsStartsWith m productGidPrefix = false)
    (hmv : jsStartsWith m variantGidPrefix = false)
    (hmc : jsStartsWith m customerGidPrefix = false) :
    formatProductId (JsId.str sp) = sp ∧
    formatVariantId (JsId.str sv) = sv ∧
    formatCustomerId sc = sc ∧
    formatProductId (JsId.str m) = productGidPrefix ++ m ∧
    formatVariantId (JsId.str m) = variantGidPrefix ∧
    formatCustomerId m = customerGidPrefix := by
  have hfilter : m.data.filter Char.isDigit = [] :=
    List.filter_eq_nil_iff.mpr fun ch hch => by simp [hm ch hch]
  refine ⟨by simp [formatProductId, hp], by simp [formatVariantId, hv],
    by simp [formatCustomerId, hc], formatProductId_malformed m hm hmp, ?_, ?_⟩
  · rw [show formatVariantId (JsId.str m)
        = variantGidPrefix ++ String.mk (m.data.filter Char.isDigit) by
      simp [formatVariantId, hmv]]
    rw [hfilter, string_append_mk_nil]
  · rw [show formatCustomerId m
        = customerGidPrefix ++ String.mk (m.data.filter Char.isDigit) by
      simp [formatCustomerId, hmc]]
    rw [hfilter, string_append_mk_nil]

/-- Witness for the amended C7: canonical ids are fixed points; `"xyz"` is
wrapped rather than returned unchanged. -/
theorem identifier_normalizer_amended_witness :
    formatProductId (JsId.str "gid://shopify/Product/1") = "gid://shopify/Product/1" ∧
    formatVariantId (JsId.str "gid://shopify/ProductVariant/2") = "gid://shopify/ProductVariant/2" ∧
    formatCustomerId "gid://shopify/Customer/3" = "gid://shopify/Customer/3" ∧
    formatProductId (JsId.str "xyz") = productGidPrefix ++ "xyz" ∧
    formatVariantId (JsId.str "xyz") = variantGidPrefix ∧
    formatCustomerId "xyz" = customerGidPrefix :=
  identifier_normalizer_amended "gid://shopify/Product/1" "gid://shopify/ProductVariant/2"
    "gid://shopify/Customer/3" "xyz" (by decide) (by decide) (by decide) (by decide)
    (by decide) (by decide) (by decide)

/-! ## Pipeline lemmas -/

theorem bestFold_isSome_imp (member : String → String → Bool) (pid : String)
    (rules : List Rule) (acc : Option Rule × ℚ) (hnn : 0 ≤ acc.2)
    (h : ((rules.foldl (bestStep member pid) acc).1).isSome = true) :
    acc.1.isSome = true ∨ ∃ r ∈ rules, member pid r.categoryId = true ∧ 0 < r.percentOff := by
  induction rules generalizing acc with
  | nil => exact Or.inl h
  | cons r rs ih =>
    rw [List.foldl_cons] at h
    by_cases hcnd : member pid r.categoryId = true ∧ acc.2 < r.percentOff
    · exact Or.inr ⟨r, List.mem_cons_self r rs, hcnd.1, lt_of_le_of_lt hnn hcnd.2⟩
    · have hstep : bestStep member pid acc r = acc := by
        unfold bestStep; exact if_neg hcnd
      rw [hstep] at h
      rcases ih acc hnn h with h1 | ⟨q, hq, hmq⟩
      · exact Or.inl h1
      · exact Or.inr ⟨q, List.mem_cons_of_mem r hq, hmq⟩

theorem bestFold_isSome_of_ex (member : String → String → Bool) (pid : String)
    (rules : List Rule) (acc : Option Rule × ℚ)
    (h : acc.1.isSome = true ∨
      ∃ r ∈ rules, member pid r.categoryId = true ∧ acc.2 < r.percentOff) :
    ((rules.foldl (bestStep member pid) acc).1).isSome = true := by
  induction rules generalizing acc with
  | nil =>
    rcases h with h | ⟨r, hr, -⟩
    · exact h
    · cases hr
  | cons r rs ih =>
    rw [List.foldl_cons]
    by_cases hcnd : member pid r.categoryId = true ∧ acc.2 < r.percentOff
    · have hstep : bestStep member pid acc r = (some r, r.percentOff) := by
        unfold bestStep; exact if_pos hcnd
      rw [hstep]
      exact ih (some r, r.percentOff) (Or.inl rfl)
    · have hstep : bestStep member pid acc r = acc := by
        unfold bestStep; exact if_neg hcnd
      rw [hstep]
      rcases h with h | ⟨q, hq, hmq, hlt⟩
      · exact ih acc (Or.inl h)
      · rcases List.mem_cons.mp hq with rfl | hq'
        · exact absurd ⟨hmq, hlt⟩ hcnd
        · exact ih acc (Or.inr ⟨q, hq', hmq, hlt⟩)

theorem processItem_isSome_iff (member : String → String → Bool) (rules : List Rule)
    (i : CartItem) :
    (processItem member rules i).isSome = true ↔
      ∃ r ∈ rules, member i.productId r.categoryId = true ∧ 0 < r.percentOff := by
  constructor
  · intro h
    have hsome : ((bestDiscountForItem member rules i.productId).1).isSome = true := by
      unfold processItem at h
      cases hbd : bestDiscountForItem member rules i.productId with
      | mk fst snd =>
        cases fst with
        | some r => simp
        | none =>
          rw [hbd] at h
          simp at h
    rcases bestFold_isSome_imp member i.productId rules (none, 0) (le_refl 0) hsome with h1 | h2
    · simp at h1
    · exact h2
  · rintro ⟨r, hr, hm, hpos⟩
    have hsome : ((bestDiscountForItem member rules i.productId).1).isSome = true :=
      bestFold_isSome_of_ex member i.productId rules (none, 0) (Or.inr ⟨r, hr, hm, hpos⟩)
    unfold processItem
    cases hbd : bestDiscountForItem member rules i.productId with
    | mk fst snd =>
      cases fst with
      | some r' => simp
      | none =>
        rw [hbd] at hsome
        simp at hsome

theorem processCart_discounts_ne_nil_iff (member : String → String → Bool)
    (rules : List Rule) (items : List CartItem) :
    (processCart member rules items).applicableDiscounts ≠ [] ↔
      ∃ i ∈ items, ∃ r ∈ rules, member i.productId r.categoryId = true ∧ 0 < r.percentOff := by
  rw [processCart_spec]
  show items.filterMap (processItem member rules) ≠ [] ↔ _
  constructor
  · intro hne
    obtain ⟨d, hd⟩ := List.exists_mem_of_ne_nil _ hne
    obtain ⟨i, hi, hpi⟩ := List.mem_filterMap.mp hd
    exact ⟨i, hi, (processItem_isSome_iff member rules i).mp (by rw [hpi]; rfl)⟩
  · rintro ⟨i, hi, hex⟩
    have hsome := (processItem_isSome_iff member rules i).mpr hex
    obtain ⟨d, hd⟩ := Option.isSome_iff_exists.mp hsome
    exact List.ne_nil_of_mem (List.mem_filterMap.mpr ⟨i, hi, hd⟩)

theorem discountPhase_createsOrder_iff (items : List CartItem) (seg : Segment)
    (plan : DiscountPlan) (fetch : String → String → MembershipFetch)
    (sink : DraftOrderOutcome) :
    createsOrder (discountPhase items seg plan fetch sink) = true ↔
      (processCart (memberOf fetch) plan.rules items).applicableDiscounts ≠ [] := by
  unfold discountPhase
  by_cases hd : (processCart (memberOf fetch) plan.rules items).applicableDiscounts = []
  · simp [hd, createsOrder]
  · have hpos : 0 < (processCart (memberOf fetch) plan.rules items).applicableDiscounts.length :=
      List.length_pos.mpr hd
    simp only [hpos, if_pos]
    cases sink <;> simp [createsOrder, hd]

theorem discountPhase_noDiscounts (items : List CartItem) (seg : Segment)
    (plan : DiscountPlan) (fetch : String → String → MembershipFetch)
    (sink : DraftOrderOutcome)
    (hd : (processCart (memberOf fetch) plan.rules items).applicableDiscounts = []) :
    discountPhase items seg plan fetch sink =
      CheckResponse.noDiscounts
        (summaryOfState false seg.name plan.name
          (processCart (memberOf fetch) plan.rules items) items.length 0) := by
  unfold discountPhase
  simp [hd]

/-- C5 counterexample: with the customer lookup failing (`customer = none`),
the action answers the 404 error `"Customer not found"`, not a normal
`discountApplicable:false` response. -/
theorem notfound_cex :
    checkSegmentDiscount true (CartItemsInput.arr [cexItem]) (some ()) none (some []) []
        (fun _ _ => MembershipFetch.ok []) DraftOrderOutcome.threw
      = CheckResponse.customerNotFound ∧
    CheckResponse.status CheckResponse.customerNotFound = 404 ∧
    CheckResponse.isError CheckResponse.customerNotFound = true ∧
    CheckResponse.discountApplicableFalse CheckResponse.customerNotFound = false := by
  refine ⟨?_, rfl, rfl, rfl⟩
  rfl

/-- C5 amended: the "no matching segment" and "no plan with rules" outcomes
are normal (status 200) `discountApplicable:false` responses, but an absent
customer is answered with the 404 error `"Customer not found"`. -/
theorem notfound_handling_amended (cart : CartItemsInput) (items : List CartItem)
    (cust : CustomerData) (segs : List Segment) (db : List DiscountPlan)
    (fetch : String → String → MembershipFetch) (sink : DraftOrderOutcome)
    (hcart : processCartItems cart = ProcessedCart.ok items)
    (hne : items.isEmpty = false) :
    (checkSegmentDiscount true cart (some ()) none (some segs) db fetch sink
        = CheckResponse.customerNotFound ∧
      CheckResponse.status CheckResponse.customerNotFound = 404 ∧
      CheckResponse.isError CheckResponse.customerNotFound = true) ∧
    (findMatchedSegment segs cust.tags = none →
      checkSegmentDiscount true cart (some ()) (some cust) (some segs) db fetch sink
        = CheckResponse.noSegmentMatch) ∧
    (∀ seg, findMatchedSegment segs cust.tags = some seg →
      (planForSegment db seg = none ∨
        ∃ plan, planForSegment db seg = some plan ∧ plan.rules = []) →
      checkSegmentDiscount true cart (some ()) (some cust) (some segs) db fetch sink
        = CheckResponse.noPlan) ∧
    (CheckResponse.status CheckResponse.noSegmentMatch = 200 ∧
      CheckResponse.status CheckResponse.noPlan = 200 ∧
      CheckResponse.discountApplicableFalse CheckResponse.noSegmentMatch = true ∧
      CheckResponse.discountApplicableFalse CheckResponse.noPlan = true ∧
      CheckResponse.isError CheckResponse.noSegmentMatch = false ∧
      CheckResponse.isError CheckResponse.noPlan = false) := by
  refine ⟨⟨?_, rfl, rfl⟩, ?_, ?_, rfl, rfl, rfl, rfl, rfl, rfl⟩
  · simp [checkSegmentDiscount, hcart, hne]
  · intro hmatch
    simp [checkSegmentDiscount, hcart, hne, hmatch]
  · rintro seg hmatch (hplan | ⟨plan, hplan, hrules⟩)
    · simp [checkSegmentDiscount, hcart, hne, hmatch, hplan]
    · have hlen : (plan.rules.length == 0) = true := by
        simp [hrules]
      simp [checkSegmentDiscount, hcart, hne, hmatch, hplan, hlen]

/-- Witness for the amended C5 at a concrete request. -/
theorem notfound_handling_amended_witness :
    checkSegmentDiscount true (CartItemsInput.arr [cexItem]) (some ())
        (some { id := "c1", tags := ["regular"] }) (some [{ id := "s1", name := "VIP" }]) []
        (fun _ _ => MembershipFetch.ok []) DraftOrderOutcome.threw
      = CheckResponse.noSegmentMatch := by
  have h := notfound_handling_amended (CartItemsInput.arr [cexItem]) [cexItem]
    { id := "c1", tags := ["regular"] } [{ id := "s1", name := "VIP" }] []
    (fun _ _ => MembershipFetch.ok []) DraftOrderOutcome.threw rfl rfl
  exact h.2.1 (by decide)

/-- C9: once the request resolves to a plan with rules, the draft-order call
is issued if and only if some cart line has a positive applicable discount;
when no line qualifies, the response is the normal no-discount summary with
`discountApplicable:false`, the computed totals (`totalDiscountAmount = 0`)
and `highestDiscountRate 0`, and no order-creation side effect occurs. -/
theorem order_sink_conditional (cart : CartItemsInput) (items : List CartItem)
    (cust : CustomerData) (segs : List Segment) (seg : Segment) (plan : DiscountPlan)
    (db : List DiscountPlan) (fetch : String → String → MembershipFetch)
    (sink : DraftOrderOutcome)
    (hcart : processCartItems cart = ProcessedCart.ok items)
    (hne : items.isEmpty = false)
    (hmatch : findMatchedSegment segs cust.tags = some seg)
    (hplan : planForSegment db seg = some plan)
    (hrules : plan.rules ≠ []) :
    (createsOrder (checkSegmentDiscount true cart (some ()) (some cust) (some segs)
        db fetch sink) = true
      ↔ ∃ i ∈ items, ∃ r ∈ plan.rules,
          memberOf fetch i.productId r.categoryId = true ∧ 0 < r.percentOff) ∧
    ((¬∃ i ∈ items, ∃ r ∈ plan.rules,
          memberOf fetch i.productId r.categoryId = true ∧ 0 < r.percentOff) →
      checkSegmentDiscount true cart (some ()) (some cust) (some segs) db fetch sink
        = CheckResponse.noDiscounts
            (summaryOfState false seg.name plan.name
              ⟨[], (items.map itemTotalPrice).sum, 0⟩ items.length 0)) := by
  have hlen : (plan.rules.length == 0) = false := by
    simp only [beq_eq_false_iff_ne, ne_eq, List.length_eq_zero]
    exact hrules
  have htail : checkSegmentDiscount true cart (some ()) (some cust) (some segs) db fetch sink
      = discountPhase items seg plan fetch sink := by
    simp [checkSegmentDiscount, hcart, hne, hmatch, hplan, hlen]
  constructor
  · rw [htail, discountPhase_createsOrder_iff]
    exact processCart_discounts_ne_nil_iff (memberOf fetch) plan.rules items
  · intro hnex
    have hfm : items.filterMap (processItem (memberOf fetch) plan.rules) = [] := by
      rw [List.filterMap_eq_nil_iff]
      intro i hi
      cases hpi : processItem (memberOf fetch) plan.rules i with
      | none => rfl
      | some d =>
        exfalso
        apply hnex
        exact ⟨i, hi, (processItem_isSome_iff (memberOf fetch) plan.rules i).mp
          (by rw [hpi]; rfl)⟩
    have hpc : processCart (memberOf fetch) plan.rules items
        = ⟨[], (items.map itemTotalPrice).sum, 0⟩ := by
      rw [processCart_spec, hfm]
      simp
    rw [htail, discountPhase_noDiscounts items seg plan fetch sink (by rw [hpc]), hpc]

/-- Witness for C9: a resolved plan whose only rule never matches (the oracle
reports no collections), so no order is created. -/
theorem order_sink_conditional_witness :
    createsOrder (checkSegmentDiscount true (CartItemsInput.arr [cexItem]) (some ())
        (some { id := "c1", tags := ["VIP"] }) (some [{ id := "s1", name := "VIP" }])
        [vipPlan] (fun _ _ => MembershipFetch.ok []) DraftOrderOutcome.threw) = true
      ↔ ∃ i ∈ [cexItem], ∃ r ∈ vipPlan.rules,
          memberOf (fun _ _ => MembershipFetch.ok []) i.productId r.categoryId = true ∧
          0 < r.percentOff :=
  (order_sink_conditional (CartItemsInput.arr [cexItem]) [cexItem]
    { id := "c1", tags := ["VIP"] } [{ id := "s1", name := "VIP" }]
    { id := "s1", name := "VIP" } vipPlan [vipPlan]
    (fun _ _ => MembershipFetch.ok []) DraftOrderOutcome.threw
    rfl rfl (by decide) (by decide) (by decide)).1

/-! ## Graceful degradation (offer route metadata fallback) -/

/-- C6 counterexample: when the metadata fetch fails, the fallback collection
entry for collection `"123"` at 20% keeps `discountApplicable:true`, correct
id and percent and an empty handle — but its title is the placeholder
`"Collection 123"`, not an empty string. -/
theorem degradation_cex :
    (buildOffer MetadataFetch.failure ["vip"] cexPlan 20).discountApplicable = true ∧
    (buildOffer MetadataFetch.failure ["vip"] cexPlan 20).collections
      = [{ id := "123", title := "Collection 123", name := "Collection 123",
           handle := "", percentOff := some 20 }] ∧
    ("Collection 123" : String) ≠ "" := by
  refine ⟨rfl, by decide, by decide⟩

/-- C6 amended: on metadata-fetch failure the offer still has
`discountApplicable:true` and the claimed highest rate, one collection per
resolved rule-map key, each with the correct id and the correct (maximum)
`percentOff` and an empty `handle` — but `title` is the placeholder
`"Collection <numericId>"` rather than an empty string. -/
theorem degradation_amended (tags : List String) (plan : DiscountPlan) (pct : ℚ) :
    (buildOffer MetadataFetch.failure tags plan pct).discountApplicable = true ∧
    (buildOffer MetadataFetch.failure tags plan pct).highestDiscountRate = pct ∧
    (buildOffer MetadataFetch.failure tags plan pct).collections.length
      = (ruleMapKeys plan.rules).length ∧
    (∀ c ∈ (buildOffer MetadataFetch.failure tags plan pct).collections,
      c.handle = "" ∧ c.title = "Collection " ++ c.id ∧
      ∃ cid ∈ ruleMapKeys plan.rules,
        c.id = dropPrefixIfStarts cid "gid://shopify/Collection/" ∧
        c.percentOff = maxPercentFor plan.rules cid) := by
  have hcoll : (buildOffer MetadataFetch.failure tags plan pct).collections
      = (ruleMapKeys plan.rules).map (fallbackCollection plan.rules) := rfl
  refine ⟨rfl, rfl, by rw [hcoll, List.length_map], ?_⟩
  intro c hc
  rw [hcoll] at hc
  obtain ⟨cid, hcid, hceq⟩ := List.mem_map.mp hc
  subst hceq
  exact ⟨rfl, rfl, cid, hcid, rfl, buildRuleMap_eq_maxPercentFor plan.rules cid⟩

/-- Witness for the amended C6 at the concrete fallback collection. -/
theorem degradation_amended_witness :
    (⟨"123", "Collection 123", "Collection 123", "", some 20⟩ : OfferCollection).handle = "" ∧
    (⟨"123", "Collection 123", "Collection 123", "", some 20⟩ : OfferCollection).title
      = "Collection " ++
        (⟨"123", "Collection 123", "Collection 123", "", some 20⟩ : OfferCollection).id := by
  have hmem : (⟨"123", "Collection 123", "Collection 123", "", some 20⟩ : OfferCollection)
      ∈ (buildOffer MetadataFetch.failure ["vip"] cexPlan 20).collections := by decide
  have h := (degradation_amended ["vip"] cexPlan 20).2.2.2 _ hmem
  exact ⟨h.1, h.2.1⟩

/-! ## Membership-check failure policy -/

/-- C8: both membership-fetch failure shapes make `checkProductInCollection`
answer `false`, and the whole pipeline behaves exactly as if the product did
not belong to the collection: replacing every failing call by a
"belongs to no collection" success changes neither the membership booleans,
nor the cart loop's outcome, nor the final response (so the request is neither
aborted nor retried). -/
theorem membership_failure_policy (fetch : String → String → MembershipFetch)
    (rules : List Rule) (items : List CartItem) (cid : String) :
    checkProductInCollection MembershipFetch.networkError cid = false ∧
    checkProductInCollection MembershipFetch.gqlErrors cid = false ∧
    (∀ p c, memberOf (replaceFailures fetch) p c = memberOf fetch p c) ∧
    processCart (memberOf fetch) rules items
      = processCart (memberOf (replaceFailures fetch)) rules items ∧
    (∀ hasFields cart sess cust segs db sink,
      checkSegmentDiscount hasFields cart sess cust segs db (replaceFailures fetch) sink
        = checkSegmentDiscount hasFields cart sess cust segs db fetch sink) := by
  have hmem : memberOf (replaceFailures fetch) = memberOf fetch := by
    funext p c
    unfold memberOf replaceFailures
    cases hf : fetch p c <;> rfl
  refine ⟨rfl, rfl, fun p c => by rw [hmem], by rw [hmem], ?_⟩
  intro hasFields cart sess cust segs db sink
  unfold checkSegmentDiscount discountPhase
  simp only [hmem]

/-! ## Cart input-format price asymmetry -/

theorem jsOrQ_one_ne_zero (x : Option ℚ) : jsOrQ x 1 ≠ 0 := by
  unfold jsOrQ
  cases x with
  | none => norm_num
  | some v =>
    by_cases h : v = 0
    · simp [h]
    · simp [h]

/-- C10: a plain-array `cartItems` is used unchanged while a Shopify cart
object's items have `price`, `original_price` and `final_price` divided by
100, so a cart line with the same numeric price and quantity yields a line
total exactly 100 times smaller in the object format — the two formats are
never equal on a non-zero price. -/
theorem cart_format_asymmetry (items : List CartItem) (sits : List ShopifyCartItem)
    (it : ShopifyCartItem) (c : CartItem) (p : ℚ)
    (hps : it.price = some p) (hpc : c.price = p)
    (hq : c.quantity = some (jsOrQ it.quantity 1)) (hp0 : p ≠ 0) :
    processCartItems (CartItemsInput.arr items) = ProcessedCart.ok items ∧
    processCartItems (CartItemsInput.obj (some sits))
      = ProcessedCart.ok (sits.map processShopifyItem) ∧
    (processShopifyItem it).price = p / 100 ∧
    (processShopifyItem it).originalPrice = some (jsOrQ it.original_price 0 / 100) ∧
    (processShopifyItem it).finalPrice = some (jsOrQ it.final_price 0 / 100) ∧
    itemTotalPrice (processShopifyItem it) = itemTotalPrice c / 100 ∧
    itemTotalPrice (processShopifyItem it) ≠ itemTotalPrice c := by
  have hqne : jsOrQ it.quantity 1 ≠ 0 := jsOrQ_one_ne_zero it.quantity
  have hprice : (processShopifyItem it).price = p / 100 := by
    simp [processShopifyItem, jsOrQ, hps, hp0]
  have htot1 : itemTotalPrice (processShopifyItem it) = p / 100 * jsOrQ it.quantity 1 := by
    unfold itemTotalPrice itemQuantity
    rw [hprice]
    simp [processShopifyItem]
  have htot2 : itemTotalPrice c = p * jsOrQ it.quantity 1 := by
    unfold itemTotalPrice itemQuantity
    rw [hpc, hq]
    simp
  refine ⟨rfl, rfl, hprice, rfl, rfl, ?_, ?_⟩
  · rw [htot1, htot2]
    ring
  · rw [htot1, htot2]
    intro heq
    have h1 : p / 100 = p := mul_right_cancel₀ hqne heq
    rw [div_eq_iff (by norm_num : (100 : ℚ) ≠ 0)] at h1
    nth_rewrite 1 [← mul_one p] at h1
    have h2 := mul_left_cancel₀ hp0 h1
    norm_num at h2

/-- A Shopify cart item and a plain cart line carrying the same numeric
fields (price 100, quantity 2). -/
def c10Shop : ShopifyCartItem :=
  { product_id := JsId.num 1, variant_id := JsId.num 2, price := some 100
    quantity := some 2, title := "t", original_price := some 100, final_price := some 100 }

def c10Plain : CartItem :=
  { productId := "1", variantId := "2", price := 100, quantity := some 2
    title := "t", originalPrice := none, finalPrice := none }

/-- Witness for C10: price 100, quantity 2 gives line total 2 in the object
format against 200 in the array format. -/
theorem cart_format_asymmetry_witness :
    itemTotalPrice (processShopifyItem c10Shop) = itemTotalPrice c10Plain / 100 ∧
    itemTotalPrice (processShopifyItem c10Shop) ≠ itemTotalPrice c10Plain := by
  have hq : c10Plain.quantity = some (jsOrQ c10Shop.quantity 1) := by decide
  have h := cart_format_asymmetry [] [] c10Shop c10Plain 100 rfl rfl hq (by norm_num)
  exact ⟨h.2.2.2.2.2.1, h.2.2.2.2.2.2⟩

end DiscountEditor
